import Mathlib

/-!
# Host/guest ABI of the scheduler wasm plugin

A shallow embedding of `scheduler/plugin/host.go` (the three host functions the
guest may call and the per-request `filterArgs` they act on) and of
`guest/internal/imports/imports.go` (the import declarations of the guest), followed
by theorems about them.

Conventions of the embedding:

* a Go `uint64` or `uint32` is a `Nat`; the conversions `uint32(x)` and
  `uint64(x)` are the explicit reductions `x % 2^32` and `x % 2^64`;
* a Go `string` and a Go `[]byte` are both a list of bytes;
* a Go panic is the result `none`;
* a `*filterArgs` is an address into a heap of `filterArgs` records, so that two
  contexts may or may not point at the same record.
-/

namespace SchedulerWasm

/-! ## Machine integers and strings -/

/-- One byte of linear memory or of a Go string. -/
abbrev Byte := UInt8

/-- A Go string: an immutable sequence of bytes. -/
abbrev GoString := List Byte

/-- The bytes of a Go string literal: the UTF-8 encoding of its characters. -/
def goString (s : String) : GoString := s.data.flatMap String.utf8EncodeChar

/-- The Go conversion `uint32(x)` of an unsigned integer. -/
def uint32 (x : Nat) : Nat := x % 2 ^ 32

/-- The Go conversion `uint64(x)` of a non-negative integer. -/
def uint64 (x : Nat) : Nat := x % 2 ^ 64

/-- Modelled from the spec: the declaration of the type `bufLimit` is missing
from the sources. The spec says every parameter of a host function is a 32-bit
integer, and host.go passes a `bufLimit` where wazero expects a `uint32`, so
the conversion `bufLimit(x)` is the conversion to `uint32`. -/
def bufLimit (x : Nat) : Nat := uint32 x

/-! ## wazero: linear memory -/

/-- The linear memory of a guest module (wazero `api.Memory`). -/
structure Memory where
  Buffer : List Byte
deriving DecidableEq

/-- wazero `hasSize`: the bounds check shared by `Read` and `Write`, done in
64-bit arithmetic so that the addition cannot wrap. -/
def Memory.hasSize (m : Memory) (offset byteCount : Nat) : Bool :=
  decide (offset + byteCount ≤ m.Buffer.length)

/-- wazero `Memory.Read(offset, byteCount)`: the bytes `[offset, offset+byteCount)`,
or `none` (Go: `ok == false`) when the range is out of bounds. -/
def Memory.Read (m : Memory) (offset byteCount : Nat) : Option (List Byte) :=
  if m.hasSize offset byteCount then some ((m.Buffer.drop offset).take byteCount) else none

/-- wazero `Memory.Write(offset, val)`: copies `val` over the bytes at `offset`,
or `none` (Go: `false`) when the range is out of bounds. -/
def Memory.Write (m : Memory) (offset : Nat) (val : List Byte) : Option Memory :=
  if m.hasSize offset val.length then
    some { Buffer := m.Buffer.take offset ++ val ++ m.Buffer.drop (offset + val.length) }
  else none

/-! ## The request: `filterArgs` and the context that carries it -/

/-- The part of `framework.NodeInfo` host.go uses: the node it holds (a
`*v1.Node`, possibly nil). -/
structure NodeInfo (N : Type) where
  node : Option N

/-- The nil-safe accessor `(*NodeInfo).Node()`. -/
def NodeInfo.Node {N : Type} : Option (NodeInfo N) → Option N
  | none => none
  | some n => n.node

/-- The struct `filterArgs`: the pod and node under evaluation (pointers,
possibly nil) and the reason the guest reported. `P` and `N` are the types of
pods and nodes, whose schema is external. -/
structure filterArgs (P N : Type) where
  pod : Option P
  nodeInfo : Option (NodeInfo N)
  reason : GoString

/-- A `*filterArgs`. -/
inductive Pointer where
  | null
  | addr (a : Nat)
deriving DecidableEq

/-- Keys of context values: `filterArgsKey{}` or a key of another package
(such as the listener-factory key of the profiler). -/
inductive ContextKey where
  | filterArgsKey
  | otherKey (id : Nat)
deriving DecidableEq

/-- A value stored in a context: a `*filterArgs` or a value of another type. -/
inductive ContextValue where
  | filterArgsPtr (p : Pointer)
  | otherValue (id : Nat)
deriving DecidableEq

/-- A `context.Context`, as the chain of its `WithValue` bindings, innermost
first. -/
structure Context where
  bindings : List (ContextKey × ContextValue)
deriving DecidableEq

/-- The method `ctx.Value(key)`: the innermost binding of `key`, or `none` (Go: a nil
interface). -/
def Context.Value (ctx : Context) (key : ContextKey) : Option ContextValue :=
  (ctx.bindings.find? (fun b => decide (b.1 = key))).map (fun b => b.2)

/-- The function `filterArgsFromContext`: `ctx.Value(filterArgsKey{}).(*filterArgs)`. The
type assertion panics when the key is unbound or bound to another type. -/
def filterArgsFromContext (ctx : Context) : Option Pointer :=
  match ctx.Value ContextKey.filterArgsKey with
  | some (ContextValue.filterArgsPtr p) => some p
  | _ => none

/-- Dereferencing a `*filterArgs`: panics on nil. -/
def Pointer.deref : Pointer → Option Nat
  | Pointer.null => none
  | Pointer.addr a => some a

/-- Everything a host function can read or change: the heap of `filterArgs`
records, the linear memory of the calling module and the value stack. -/
structure HostState (P N : Type) where
  heap : Nat → filterArgs P N
  mem : Memory
  stack : List Nat

/-! ## The host functions -/

/-- The text stored when the message of the guest cannot be read. -/
def outOfMemoryReason : GoString := goString "BUG: out of memory reading message"

/-- The function `k8sSchedulerStatusReasonFn`: used by the guest to set the status reason. -/
def k8sSchedulerStatusReasonFn {P N : Type} (ctx : Context) (s : HostState P N) :
    Option (HostState P N) := do
  let ptr := uint32 (← s.stack[0]?)
  let size := bufLimit (← s.stack[1]?)
  let reason : GoString :=
    match s.mem.Read ptr size with
    | none => outOfMemoryReason
    | some b => b
  let a ← (← filterArgsFromContext ctx).deref
  some { s with heap := Function.update s.heap a { s.heap a with reason := reason } }

/-- The signature of `marshalIfUnderLimit` at one object type: from the memory,
the object, the buffer offset and the limit to the memory afterwards and the
returned length, or a panic. -/
abbrev Marshal (α : Type) := Memory → Option α → Nat → Nat → Option (Memory × Nat)

/-- The function `k8sApiNodeInfoNodeFn`, over the `marshalIfUnderLimit` it calls. -/
def k8sApiNodeInfoNodeFn {P N : Type} (marshal : Marshal N) (ctx : Context)
    (s : HostState P N) : Option (HostState P N) := do
  let buf := uint32 (← s.stack[0]?)
  let lim := bufLimit (← s.stack[1]?)
  let a ← (← filterArgsFromContext ctx).deref
  let node := NodeInfo.Node (s.heap a).nodeInfo
  let r ← marshal s.mem node buf lim
  some { s with mem := r.1, stack := s.stack.set 0 (uint64 r.2) }

/-- The function `k8sApiPodFn`, over the `marshalIfUnderLimit` it calls. -/
def k8sApiPodFn {P N : Type} (marshal : Marshal P) (ctx : Context)
    (s : HostState P N) : Option (HostState P N) := do
  let buf := uint32 (← s.stack[0]?)
  let lim := bufLimit (← s.stack[1]?)
  let a ← (← filterArgsFromContext ctx).deref
  let pod := (s.heap a).pod
  let r ← marshal s.mem pod buf lim
  some { s with mem := r.1, stack := s.stack.set 0 (uint64 r.2) }

/-! ## The marshal protocol -/

/-- Modelled from the spec: the encoder of the objects is external. An absent
(nil) object is encoded as the empty payload, any other object by the fixed
encoding `enc`. -/
def serialize {α : Type} (enc : α → List Byte) : Option α → List Byte
  | none => []
  | some o => enc o

/-- Modelled from the spec: the exact byte length of the encoding of an object. -/
def serializedLength {α : Type} (enc : α → List Byte) (o : Option α) : Nat :=
  (serialize enc o).length

/-- Modelled from the spec: `marshalIfUnderLimit` is called by host.go but its
body is missing from the sources. Following section 4.1: serialize the object;
if the length is at most the limit, write the bytes at the buffer offset and
return the length; otherwise write nothing and return the length. A write that
fails although the length passed the check is fatal. -/
def marshalIfUnderLimit {α : Type} (enc : α → List Byte) : Marshal α :=
  fun mem object bufPtr limit =>
    let bytes := serialize enc object
    if bytes.length ≤ limit then
      (mem.Write bufPtr bytes).map (fun m => (m, bytes.length))
    else some (mem, bytes.length)

/-! ## The host registry (host.go) and the guest imports (imports.go) -/

/-- wazero `api.ValueType`. -/
inductive ValueType where
  | I32
  | I64
  | F32
  | F64
deriving DecidableEq

/-- The constant `i32 = wazeroapi.ValueTypeI32`. -/
def i32 : ValueType := ValueType.I32

/-- The constant `k8sApi`. -/
def k8sApi : String := "k8s.io/api"

/-- The constant `k8sApiNodeInfoNode`. -/
def k8sApiNodeInfoNode : String := "nodeInfo/node"

/-- The constant `k8sApiPod`. -/
def k8sApiPod : String := "pod"

/-- The constant `k8sScheduler`. -/
def k8sScheduler : String := "k8s.io/scheduler"

/-- The constant `k8sSchedulerStatusReason`. -/
def k8sSchedulerStatusReason : String := "status_reason"

/-- The three Go functions host.go binds. -/
inductive HostFn where
  | statusReason
  | nodeInfoNode
  | pod
deriving DecidableEq

/-- One function of a host module, as built by `NewFunctionBuilder()...Export(name)`. -/
structure HostFunction where
  fn : HostFn
  params : List ValueType
  results : List ValueType
  parameterNames : List String
  exportName : String
deriving DecidableEq

/-- A host module, as built by `NewHostModuleBuilder(name)`. -/
structure HostModule where
  moduleName : String
  functions : List HostFunction
deriving DecidableEq

/-- The module `instantiateHostScheduler` instantiates. -/
def instantiateHostScheduler : HostModule :=
  { moduleName := k8sScheduler,
    functions := [
      { fn := HostFn.statusReason, params := [i32, i32], results := [],
        parameterNames := ["ptr", "size"], exportName := k8sSchedulerStatusReason }] }

/-- The module `instantiateHostApi` instantiates. -/
def instantiateHostApi : HostModule :=
  { moduleName := k8sApi,
    functions := [
      { fn := HostFn.nodeInfoNode, params := [i32, i32], results := [i32],
        parameterNames := ["buf", "buf_limit"], exportName := k8sApiNodeInfoNode },
      { fn := HostFn.pod, params := [i32, i32], results := [i32],
        parameterNames := ["buf", "buf_limit"], exportName := k8sApiPod }] }

/-- What linking compares: module name, function name, parameter types in
order, result types in order. -/
structure Signature where
  moduleName : String
  functionName : String
  params : List ValueType
  results : List ValueType
deriving DecidableEq

/-- The signatures a host module offers. -/
def HostModule.signatures (m : HostModule) : List Signature :=
  m.functions.map (fun f =>
    { moduleName := m.moduleName, functionName := f.exportName,
      params := f.params, results := f.results })

/-- Every signature the host registers. -/
def hostRegistry : List Signature :=
  instantiateHostScheduler.signatures ++ instantiateHostApi.signatures

/-- The Go types that occur in the guest import declarations. -/
inductive GoType where
  | uint32
  | bufLimit
deriving DecidableEq

/-- Modelled from the spec: how the guest compiler lowers a Go type to a wasm
value type. `uint32` is a 32-bit integer; the declaration of the guest type
`bufLimit` is missing from the sources and the spec says every parameter is a
32-bit integer. -/
def GoType.valueType : GoType → ValueType
  | GoType.uint32 => ValueType.I32
  | GoType.bufLimit => ValueType.I32

/-- A bodiless Go function under `//go:wasm-module` and `//go:export`. -/
structure GuestImport where
  wasmModule : String
  exportName : String
  params : List GoType
  results : List GoType
deriving DecidableEq

/-- The declaration `func _statusReason(ptr, size uint32)`. -/
def _statusReason : GuestImport :=
  { wasmModule := "k8s.io/scheduler", exportName := "status_reason",
    params := [GoType.uint32, GoType.uint32], results := [] }

/-- The declaration `func _nodeInfoNode(ptr uint32, limit bufLimit) (len uint32)`. -/
def _nodeInfoNode : GuestImport :=
  { wasmModule := "k8s.io/api", exportName := "nodeInfo/node",
    params := [GoType.uint32, GoType.bufLimit], results := [GoType.uint32] }

/-- The declaration `func _pod(ptr uint32, limit bufLimit) (len uint32)`. -/
def _pod : GuestImport :=
  { wasmModule := "k8s.io/api", exportName := "pod",
    params := [GoType.uint32, GoType.bufLimit], results := [GoType.uint32] }

/-- The signature the guest module imports for a declaration. -/
def GuestImport.signature (g : GuestImport) : Signature :=
  { moduleName := g.wasmModule, functionName := g.exportName,
    params := g.params.map GoType.valueType, results := g.results.map GoType.valueType }

/-- Every import imports.go declares. -/
def guestImports : List GuestImport := [_statusReason, _nodeInfoNode, _pod]

/-- The Go function bound to each `HostFn`, over the two instances of
`marshalIfUnderLimit` (for nodes and for pods). -/
def HostFn.call {P N : Type} (marshalNode : Marshal N) (marshalPod : Marshal P) :
    HostFn → Context → HostState P N → Option (HostState P N)
  | HostFn.statusReason => k8sSchedulerStatusReasonFn
  | HostFn.nodeInfoNode => k8sApiNodeInfoNodeFn marshalNode
  | HostFn.pod => k8sApiPodFn marshalPod

/-! ## Sample data -/

/-- A context as the plugin builds it: the `filterArgs` of the request at
address 0, bound inside a context that already carries a profiler key. -/
def sampleCtx : Context :=
  { bindings := [(ContextKey.filterArgsKey, ContextValue.filterArgsPtr (Pointer.addr 0)),
                 (ContextKey.otherKey 1, ContextValue.otherValue 0)] }

/-- The context of a second request, whose `filterArgs` is at address 1. -/
def otherCtx : Context :=
  { bindings := [(ContextKey.filterArgsKey, ContextValue.filterArgsPtr (Pointer.addr 1))] }

/-- A heap for objects that are their own encoding: every request holds a
four-byte pod, a two-byte node and the reason "old". -/
def sampleHeap : Nat → filterArgs (List Byte) (List Byte) :=
  fun _ => { pod := some [1, 2, 3, 4], nodeInfo := some { node := some [7, 8] },
             reason := goString "old" }

/-- A linear memory of four bytes. -/
def sampleMem : Memory := { Buffer := [10, 11, 12, 13] }

/-- The workload of scenario A: a pod whose encoding has 37 bytes. -/
def scenarioPod : List Byte := List.replicate 37 42

/-- The heap of scenario A: every request holds the 37-byte pod and a
two-byte node. -/
def scenarioHeap : Nat → filterArgs (List Byte) (List Byte) :=
  fun _ => { pod := some scenarioPod, nodeInfo := some { node := some [7, 8] }, reason := [] }

/-- The memory of scenario A: 1024 zero bytes. -/
def scenarioMem : Memory := { Buffer := List.replicate 1024 0 }

/-- A marshal function with a visible effect on every call: it adds one to
every byte of the memory and returns the sum of the length of the object, the
offset and the limit. -/
def tallyMarshal : Marshal (List Byte) :=
  fun mem o buf lim =>
    some ({ Buffer := mem.Buffer.map (fun b => b + 1) }, (serialize id o).length + buf + lim)

/-! # Theorems -/

/-! ## How each host function runs -/

/-- With a request attached and two stack slots, `k8sSchedulerStatusReasonFn`
returns, and changes only the reason of that request. -/
theorem statusReasonFn_run {P N : Type} (ctx : Context) (a : Nat)
    (hctx : filterArgsFromContext ctx = some (Pointer.addr a))
    (heap : Nat → filterArgs P N) (mem : Memory) (s0 s1 : Nat) (rest : List Nat) :
    k8sSchedulerStatusReasonFn ctx { heap := heap, mem := mem, stack := s0 :: s1 :: rest }
      = some { heap := Function.update heap a
                 { heap a with
                   reason := (mem.Read (uint32 s0) (bufLimit s1)).getD outOfMemoryReason },
               mem := mem, stack := s0 :: s1 :: rest } := by
  cases hr : mem.Read (uint32 s0) (bufLimit s1) <;>
    simp [k8sSchedulerStatusReasonFn, hctx, Pointer.deref, hr]

/-- With a request attached and two stack slots, `k8sApiNodeInfoNodeFn` is one
call of the marshal function on the node, its length stored in slot 0. -/
theorem nodeInfoNodeFn_run {P N : Type} (marshal : Marshal N) (ctx : Context) (a : Nat)
    (hctx : filterArgsFromContext ctx = some (Pointer.addr a))
    (heap : Nat → filterArgs P N) (mem : Memory) (s0 s1 : Nat) (rest : List Nat) :
    k8sApiNodeInfoNodeFn marshal ctx { heap := heap, mem := mem, stack := s0 :: s1 :: rest }
      = (marshal mem (NodeInfo.Node (heap a).nodeInfo) (uint32 s0) (bufLimit s1)).map
          (fun r => { heap := heap, mem := r.1, stack := uint64 r.2 :: s1 :: rest }) := by
  cases hm : marshal mem (NodeInfo.Node (heap a).nodeInfo) (uint32 s0) (bufLimit s1) <;>
    simp [k8sApiNodeInfoNodeFn, hctx, Pointer.deref, hm]

/-- With a request attached and two stack slots, `k8sApiPodFn` is one call of
the marshal function on the pod, its length stored in slot 0. -/
theorem podFn_run {P N : Type} (marshal : Marshal P) (ctx : Context) (a : Nat)
    (hctx : filterArgsFromContext ctx = some (Pointer.addr a))
    (heap : Nat → filterArgs P N) (mem : Memory) (s0 s1 : Nat) (rest : List Nat) :
    k8sApiPodFn marshal ctx { heap := heap, mem := mem, stack := s0 :: s1 :: rest }
      = (marshal mem (heap a).pod (uint32 s0) (bufLimit s1)).map
          (fun r => { heap := heap, mem := r.1, stack := uint64 r.2 :: s1 :: rest }) := by
  cases hm : marshal mem (heap a).pod (uint32 s0) (bufLimit s1) <;>
    simp [k8sApiPodFn, hctx, Pointer.deref, hm]

/-- A read inside the memory returns the bytes of the range. -/
theorem read_in_range (mem : Memory) (ptr size : Nat) (h : ptr + size ≤ mem.Buffer.length) :
    mem.Read ptr size = some ((mem.Buffer.drop ptr).take size) := by
  simp [Memory.Read, Memory.hasSize, h]

/-- A read that leaves the memory fails. -/
theorem read_out_of_range (mem : Memory) (ptr size : Nat)
    (h : mem.Buffer.length < ptr + size) : mem.Read ptr size = none := by
  simp [Memory.Read, Memory.hasSize, h]

/-! ## Inversion: what a returning call must have done -/

/-- A call of `k8sSchedulerStatusReasonFn` that returns had a request attached
and two stack slots, and changed only the reason of that request. -/
theorem statusReasonFn_some {P N : Type} (ctx : Context) (s t : HostState P N)
    (h : k8sSchedulerStatusReasonFn ctx s = some t) :
    ∃ a s0 s1 rest, filterArgsFromContext ctx = some (Pointer.addr a) ∧
      s.stack = s0 :: s1 :: rest ∧
      t = { heap := Function.update s.heap a
              { s.heap a with
                reason := (s.mem.Read (uint32 s0) (bufLimit s1)).getD outOfMemoryReason },
            mem := s.mem, stack := s.stack } := by
  obtain ⟨heap, mem, stack⟩ := s
  rcases stack with _ | ⟨s0, _ | ⟨s1, rest⟩⟩
  · simp [k8sSchedulerStatusReasonFn] at h
  · simp [k8sSchedulerStatusReasonFn] at h
  · cases hc : filterArgsFromContext ctx with
    | none => simp [k8sSchedulerStatusReasonFn, hc] at h
    | some p =>
      cases p with
      | null => simp [k8sSchedulerStatusReasonFn, hc, Pointer.deref] at h
      | addr a =>
        rw [statusReasonFn_run ctx a hc] at h
        exact ⟨a, s0, s1, rest, rfl, rfl, (Option.some.inj h).symm⟩

/-- A call of `k8sApiNodeInfoNodeFn` that returns had a request attached and two
stack slots, and its marshal call returned. -/
theorem nodeInfoNodeFn_some {P N : Type} (marshal : Marshal N) (ctx : Context)
    (s t : HostState P N) (h : k8sApiNodeInfoNodeFn marshal ctx s = some t) :
    ∃ a s0 s1 rest r, filterArgsFromContext ctx = some (Pointer.addr a) ∧
      s.stack = s0 :: s1 :: rest ∧
      marshal s.mem (NodeInfo.Node (s.heap a).nodeInfo) (uint32 s0) (bufLimit s1) = some r ∧
      t = { heap := s.heap, mem := r.1, stack := uint64 r.2 :: s1 :: rest } := by
  obtain ⟨heap, mem, stack⟩ := s
  rcases stack with _ | ⟨s0, _ | ⟨s1, rest⟩⟩
  · simp [k8sApiNodeInfoNodeFn] at h
  · simp [k8sApiNodeInfoNodeFn] at h
  · cases hc : filterArgsFromContext ctx with
    | none => simp [k8sApiNodeInfoNodeFn, hc] at h
    | some p =>
      cases p with
      | null => simp [k8sApiNodeInfoNodeFn, hc, Pointer.deref] at h
      | addr a =>
        rw [nodeInfoNodeFn_run marshal ctx a hc] at h
        cases hm : marshal mem (NodeInfo.Node (heap a).nodeInfo) (uint32 s0) (bufLimit s1) with
        | none => simp [hm] at h
        | some r =>
          simp only [hm, Option.map_some'] at h
          exact ⟨a, s0, s1, rest, r, rfl, rfl, hm, (Option.some.inj h).symm⟩

/-- A call of `k8sApiPodFn` that returns had a request attached and two stack
slots, and its marshal call returned. -/
theorem podFn_some {P N : Type} (marshal : Marshal P) (ctx : Context)
    (s t : HostState P N) (h : k8sApiPodFn marshal ctx s = some t) :
    ∃ a s0 s1 rest r, filterArgsFromContext ctx = some (Pointer.addr a) ∧
      s.stack = s0 :: s1 :: rest ∧
      marshal s.mem (s.heap a).pod (uint32 s0) (bufLimit s1) = some r ∧
      t = { heap := s.heap, mem := r.1, stack := uint64 r.2 :: s1 :: rest } := by
  obtain ⟨heap, mem, stack⟩ := s
  rcases stack with _ | ⟨s0, _ | ⟨s1, rest⟩⟩
  · simp [k8sApiPodFn] at h
  · simp [k8sApiPodFn] at h
  · cases hc : filterArgsFromContext ctx with
    | none => simp [k8sApiPodFn, hc] at h
    | some p =>
      cases p with
      | null => simp [k8sApiPodFn, hc, Pointer.deref] at h
      | addr a =>
        rw [podFn_run marshal ctx a hc] at h
        cases hm : marshal mem (heap a).pod (uint32 s0) (bufLimit s1) with
        | none => simp [hm] at h
        | some r =>
          simp only [hm, Option.map_some'] at h
          exact ⟨a, s0, s1, rest, r, rfl, rfl, hm, (Option.some.inj h).symm⟩

/-! ## The marshal protocol -/

/-- A write inside the memory succeeds and replaces exactly the bytes of its range. -/
theorem write_in_range (mem : Memory) (buf : Nat) (val : List Byte)
    (h : buf + val.length ≤ mem.Buffer.length) :
    ∃ m, mem.Write buf val = some m ∧
      (m.Buffer.drop buf).take val.length = val ∧
      m.Buffer.length = mem.Buffer.length ∧
      m.Buffer.take buf = mem.Buffer.take buf ∧
      m.Buffer.drop (buf + val.length) = mem.Buffer.drop (buf + val.length) := by
  have hlen : (mem.Buffer.take buf).length = buf := by
    rw [List.length_take]; omega
  have hw : mem.Write buf val
      = some { Buffer := mem.Buffer.take buf ++ val ++ mem.Buffer.drop (buf + val.length) } := by
    simp [Memory.Write, Memory.hasSize, h]
  refine ⟨_, hw, ?_, ?_, ?_, ?_⟩
  · simp only [List.append_assoc]
    rw [List.drop_append_of_le_length (by omega), List.drop_of_length_le (by omega)]
    simp
  · simp only [List.length_append, List.length_take, List.length_drop]
    omega
  · simp only [List.append_assoc]
    rw [List.take_append_of_le_length (by omega), List.take_of_length_le (by omega)]
  · rw [List.drop_append_eq_append_drop]
    simp only [List.length_append, hlen]
    rw [List.drop_of_length_le (by simp [hlen])]
    simp

/-- Under the limit and inside the memory, `marshalIfUnderLimit` writes the
encoding and returns its length. -/
theorem marshal_under_limit {α : Type} (enc : α → List Byte) (mem : Memory) (o : Option α)
    (buf lim : Nat) (hlim : serializedLength enc o ≤ lim)
    (hrange : buf + serializedLength enc o ≤ mem.Buffer.length) :
    ∃ m, marshalIfUnderLimit enc mem o buf lim = some (m, serializedLength enc o) ∧
      (m.Buffer.drop buf).take (serializedLength enc o) = serialize enc o ∧
      m.Buffer.length = mem.Buffer.length ∧
      m.Buffer.take buf = mem.Buffer.take buf ∧
      m.Buffer.drop (buf + serializedLength enc o)
        = mem.Buffer.drop (buf + serializedLength enc o) := by
  obtain ⟨m, hw, h1, h2, h3, h4⟩ := write_in_range mem buf (serialize enc o) hrange
  refine ⟨m, ?_, h1, h2, h3, h4⟩
  unfold serializedLength at hlim
  simp [marshalIfUnderLimit, hlim, hw, serializedLength]

/-- Over the limit, `marshalIfUnderLimit` writes nothing and returns the length. -/
theorem marshal_over_limit {α : Type} (enc : α → List Byte) (mem : Memory) (o : Option α)
    (buf lim : Nat) (hlim : lim < serializedLength enc o) :
    marshalIfUnderLimit enc mem o buf lim = some (mem, serializedLength enc o) := by
  unfold serializedLength at hlim
  simp [marshalIfUnderLimit, Nat.not_le.mpr hlim, serializedLength]

/-- A limit taken from the stack is a 32-bit value, so `uint64` keeps any
length that is at most a limit. -/
theorem uint64_of_le_bufLimit (len x : Nat) (h : len ≤ bufLimit x) : uint64 len = len := by
  have hx : bufLimit x < 2 ^ 32 := Nat.mod_lt _ (by norm_num)
  exact Nat.mod_eq_of_lt (by omega)

/-- The length scenario A speaks of: the pod of the scenario encodes to 37 bytes. -/
theorem scenarioPod_length : serializedLength id (scenarioHeap 0).pod = 37 := by decide

/-! ## status_reason -/

/-- C1: when the range `[ptr, ptr+size)` taken from the stack lies inside the
guest memory (`ptr + size ≤ len`, the bounds check of the memory read) and a
request is attached to the call, `k8sSchedulerStatusReasonFn`
returns and the reason of the request is exactly the `size` bytes of memory
starting at `ptr`; for `size = 0` it is the empty string. -/
theorem statusReason_stores_message {P N : Type} (ctx : Context) (a : Nat)
    (hctx : filterArgsFromContext ctx = some (Pointer.addr a))
    (heap : Nat → filterArgs P N) (mem : Memory) (s0 s1 : Nat) (rest : List Nat)
    (hrange : uint32 s0 + bufLimit s1 ≤ mem.Buffer.length) :
    ∃ t, k8sSchedulerStatusReasonFn ctx { heap := heap, mem := mem, stack := s0 :: s1 :: rest }
          = some t ∧
      (t.heap a).reason = (mem.Buffer.drop (uint32 s0)).take (bufLimit s1) ∧
      (t.heap a).reason.length = bufLimit s1 ∧
      (bufLimit s1 = 0 → (t.heap a).reason = []) := by
  refine ⟨_, statusReasonFn_run ctx a hctx heap mem s0 s1 rest, ?_, ?_, ?_⟩
  · simp [read_in_range mem _ _ hrange]
  · simp [read_in_range mem _ _ hrange]
    omega
  · intro h0
    rw [h0] at hrange
    simp [h0, read_in_range mem _ _ hrange]

/-- The bytes at `[1, 3)` of the sample memory become the reason. -/
theorem statusReason_stores_message_witness :
    filterArgsFromContext sampleCtx = some (Pointer.addr 0) ∧
    uint32 1 + bufLimit 2 ≤ sampleMem.Buffer.length ∧
    ∃ t, k8sSchedulerStatusReasonFn sampleCtx
          { heap := sampleHeap, mem := sampleMem, stack := [1, 2] } = some t ∧
      (t.heap 0).reason = (sampleMem.Buffer.drop (uint32 1)).take (bufLimit 2) ∧
      (t.heap 0).reason.length = bufLimit 2 ∧
      (bufLimit 2 = 0 → (t.heap 0).reason = []) :=
  ⟨by decide, by decide,
   statusReason_stores_message sampleCtx 0 (by decide) sampleHeap sampleMem 1 2 [] (by decide)⟩

/-- C2: when the range `[ptr, ptr+size)` taken from the stack is not inside the
guest memory, `k8sSchedulerStatusReasonFn` does not panic: it returns, and the
reason of the request is the fixed text "BUG: out of memory reading message". -/
theorem statusReason_out_of_range {P N : Type} (ctx : Context) (a : Nat)
    (hctx : filterArgsFromContext ctx = some (Pointer.addr a))
    (heap : Nat → filterArgs P N) (mem : Memory) (s0 s1 : Nat) (rest : List Nat)
    (hrange : mem.Buffer.length < uint32 s0 + bufLimit s1) :
    ∃ t, k8sSchedulerStatusReasonFn ctx { heap := heap, mem := mem, stack := s0 :: s1 :: rest }
          = some t ∧
      (t.heap a).reason = goString "BUG: out of memory reading message" := by
  refine ⟨_, statusReasonFn_run ctx a hctx heap mem s0 s1 rest, ?_⟩
  simp [read_out_of_range mem _ _ hrange, outOfMemoryReason]

/-- Scenario C: five bytes are asked for where the memory holds four. -/
theorem statusReason_out_of_range_witness :
    filterArgsFromContext sampleCtx = some (Pointer.addr 0) ∧
    sampleMem.Buffer.length < uint32 0 + bufLimit 5 ∧
    ∃ t, k8sSchedulerStatusReasonFn sampleCtx
          { heap := sampleHeap, mem := sampleMem, stack := [0, 5] } = some t ∧
      (t.heap 0).reason = goString "BUG: out of memory reading message" :=
  ⟨by decide, by decide,
   statusReason_out_of_range sampleCtx 0 (by decide) sampleHeap sampleMem 0 5 [] (by decide)⟩

/-- C3: two calls of `k8sSchedulerStatusReasonFn` in sequence on the same
request both return, and leave the heap the second call alone would have left:
the reason is what the second call read (its bytes, or the fixed text when its
range is out of memory), whatever the first call and the initial reason were. -/
theorem statusReason_last_write_wins {P N : Type} (ctx : Context) (a : Nat)
    (hctx : filterArgsFromContext ctx = some (Pointer.addr a))
    (heap : Nat → filterArgs P N) (mem₁ mem₂ : Memory) (p₁ n₁ p₂ n₂ : Nat)
    (rest₁ rest₂ : List Nat) :
    ∃ t₁ t₂ u,
      k8sSchedulerStatusReasonFn ctx { heap := heap, mem := mem₁, stack := p₁ :: n₁ :: rest₁ }
        = some t₁ ∧
      k8sSchedulerStatusReasonFn ctx { heap := t₁.heap, mem := mem₂, stack := p₂ :: n₂ :: rest₂ }
        = some t₂ ∧
      k8sSchedulerStatusReasonFn ctx { heap := heap, mem := mem₂, stack := p₂ :: n₂ :: rest₂ }
        = some u ∧
      t₂.heap = u.heap ∧
      (t₂.heap a).reason = (mem₂.Read (uint32 p₂) (bufLimit n₂)).getD
        (goString "BUG: out of memory reading message") := by
  refine ⟨_, _, _, statusReasonFn_run ctx a hctx heap mem₁ p₁ n₁ rest₁,
    statusReasonFn_run ctx a hctx _ mem₂ p₂ n₂ rest₂,
    statusReasonFn_run ctx a hctx heap mem₂ p₂ n₂ rest₂, ?_, ?_⟩
  · simp
  · simp [outOfMemoryReason]

/-- A message of two bytes, then an out-of-range report: the fixed text wins. -/
theorem statusReason_last_write_wins_witness :
    filterArgsFromContext sampleCtx = some (Pointer.addr 0) ∧
    ∃ t₁ t₂ u,
      k8sSchedulerStatusReasonFn sampleCtx { heap := sampleHeap, mem := sampleMem, stack := [1, 2] }
        = some t₁ ∧
      k8sSchedulerStatusReasonFn sampleCtx { heap := t₁.heap, mem := sampleMem, stack := [0, 5] }
        = some t₂ ∧
      k8sSchedulerStatusReasonFn sampleCtx { heap := sampleHeap, mem := sampleMem, stack := [0, 5] }
        = some u ∧
      t₂.heap = u.heap ∧
      (t₂.heap 0).reason = (sampleMem.Read (uint32 0) (bufLimit 5)).getD
        (goString "BUG: out of memory reading message") :=
  ⟨by decide,
   statusReason_last_write_wins sampleCtx 0 (by decide) sampleHeap sampleMem sampleMem 1 2 0 5 [] []⟩

/-- Remark on the bounds check: wazero checks `ptr + size ≤ len` also for
`size = 0`, so an empty read at an offset beyond the end of the memory counts as
out of range and stores the fixed text. -/
theorem statusReason_empty_read_beyond_memory :
    ∃ t, k8sSchedulerStatusReasonFn sampleCtx
          { heap := sampleHeap, mem := sampleMem, stack := [10, 0] } = some t ∧
      (t.heap 0).reason = goString "BUG: out of memory reading message" := by
  refine ⟨_, statusReasonFn_run sampleCtx 0 (by decide) sampleHeap sampleMem 10 0 [], ?_⟩
  have hr : sampleMem.Read (uint32 10) (bufLimit 0) = none := by decide
  simp [hr, outOfMemoryReason]

/-! ## fetch-target and fetch-workload -/

/-- C4 as stated fails: a four-byte pod fits the limit 4, but at offset 2 of a
four-byte memory the write leaves the memory, the call panics, and no state
with the encoding written and the length returned results. -/
theorem fetch_under_limit_counterexample :
    serializedLength id (sampleHeap 0).pod ≤ bufLimit 4 ∧
    (k8sApiPodFn (marshalIfUnderLimit id) sampleCtx
      { heap := sampleHeap, mem := sampleMem, stack := [2, 4] }).isNone = true ∧
    ¬ ∃ t, k8sApiPodFn (marshalIfUnderLimit id) sampleCtx
          { heap := sampleHeap, mem := sampleMem, stack := [2, 4] } = some t ∧
        (t.mem.Buffer.drop (uint32 2)).take (serializedLength id (sampleHeap 0).pod)
          = serialize id (sampleHeap 0).pod ∧
        t.stack[0]? = some (serializedLength id (sampleHeap 0).pod) := by
  have hnone : k8sApiPodFn (marshalIfUnderLimit id) sampleCtx
      { heap := sampleHeap, mem := sampleMem, stack := [2, 4] } = none := by
    rw [podFn_run (marshalIfUnderLimit id) sampleCtx 0 (by decide)]
    have hm : marshalIfUnderLimit id sampleMem (sampleHeap 0).pod (uint32 2) (bufLimit 4) = none := by
      decide
    rw [hm]
    rfl
  refine ⟨by decide, by rw [hnone]; rfl, ?_⟩
  rintro ⟨t, ht, -⟩
  rw [hnone] at ht
  exact Option.noConfusion ht

/-- C4 (amended): for the node exported by `k8sApiNodeInfoNodeFn` and the pod
exported by `k8sApiPodFn`, every offset `buf` and limit `L` taken from the stack
with `L ≥ serializedLength(O)` (equality included) and with the range
`[buf, buf + serializedLength(O))` inside the guest memory: the call returns,
the memory bytes of that range equal `serialize(O)`, the rest of the memory is
unchanged, and slot 0 of the stack holds `serializedLength(O)`. -/
theorem fetch_under_limit_writes_encoding {P N : Type}
    (encNode : N → List Byte) (encPod : P → List Byte) (ctx : Context) (a : Nat)
    (hctx : filterArgsFromContext ctx = some (Pointer.addr a))
    (heap : Nat → filterArgs P N) (mem : Memory) (s0 s1 : Nat) (rest : List Nat) :
    (serializedLength encNode (NodeInfo.Node (heap a).nodeInfo) ≤ bufLimit s1 →
     uint32 s0 + serializedLength encNode (NodeInfo.Node (heap a).nodeInfo)
       ≤ mem.Buffer.length →
     ∃ t, k8sApiNodeInfoNodeFn (marshalIfUnderLimit encNode) ctx
            { heap := heap, mem := mem, stack := s0 :: s1 :: rest } = some t ∧
       (t.mem.Buffer.drop (uint32 s0)).take
           (serializedLength encNode (NodeInfo.Node (heap a).nodeInfo))
         = serialize encNode (NodeInfo.Node (heap a).nodeInfo) ∧
       t.stack[0]? = some (serializedLength encNode (NodeInfo.Node (heap a).nodeInfo)) ∧
       t.mem.Buffer.length = mem.Buffer.length ∧
       t.mem.Buffer.take (uint32 s0) = mem.Buffer.take (uint32 s0) ∧
       t.mem.Buffer.drop
           (uint32 s0 + serializedLength encNode (NodeInfo.Node (heap a).nodeInfo))
         = mem.Buffer.drop
           (uint32 s0 + serializedLength encNode (NodeInfo.Node (heap a).nodeInfo))) ∧
    (serializedLength encPod (heap a).pod ≤ bufLimit s1 →
     uint32 s0 + serializedLength encPod (heap a).pod ≤ mem.Buffer.length →
     ∃ t, k8sApiPodFn (marshalIfUnderLimit encPod) ctx
            { heap := heap, mem := mem, stack := s0 :: s1 :: rest } = some t ∧
       (t.mem.Buffer.drop (uint32 s0)).take (serializedLength encPod (heap a).pod)
         = serialize encPod (heap a).pod ∧
       t.stack[0]? = some (serializedLength encPod (heap a).pod) ∧
       t.mem.Buffer.length = mem.Buffer.length ∧
       t.mem.Buffer.take (uint32 s0) = mem.Buffer.take (uint32 s0) ∧
       t.mem.Buffer.drop (uint32 s0 + serializedLength encPod (heap a).pod)
         = mem.Buffer.drop (uint32 s0 + serializedLength encPod (heap a).pod)) := by
  constructor
  · intro hlim hrange
    obtain ⟨m, hm, h1, h2, h3, h4⟩ :=
      marshal_under_limit encNode mem (NodeInfo.Node (heap a).nodeInfo) (uint32 s0)
        (bufLimit s1) hlim hrange
    refine ⟨_, by rw [nodeInfoNodeFn_run _ ctx a hctx, hm]; rfl, h1, ?_, h2, h3, h4⟩
    simp [uint64_of_le_bufLimit _ s1 hlim]
  · intro hlim hrange
    obtain ⟨m, hm, h1, h2, h3, h4⟩ :=
      marshal_under_limit encPod mem (heap a).pod (uint32 s0) (bufLimit s1) hlim hrange
    refine ⟨_, by rw [podFn_run _ ctx a hctx, hm]; rfl, h1, ?_, h2, h3, h4⟩
    simp [uint64_of_le_bufLimit _ s1 hlim]

/-- C5: for the node exported by `k8sApiNodeInfoNodeFn` and the pod exported by
`k8sApiPodFn`, every offset and every limit `L` taken from the stack with
`L < serializedLength(O)` (the probe `L = 0` included), the length being a Go
integer: the call returns, the guest memory is unchanged as a whole, and slot 0
of the stack holds `serializedLength(O)`. -/
theorem fetch_over_limit_writes_nothing {P N : Type}
    (encNode : N → List Byte) (encPod : P → List Byte) (ctx : Context) (a : Nat)
    (hctx : filterArgsFromContext ctx = some (Pointer.addr a))
    (heap : Nat → filterArgs P N) (mem : Memory) (s0 s1 : Nat) (rest : List Nat) :
    (bufLimit s1 < serializedLength encNode (NodeInfo.Node (heap a).nodeInfo) →
     serializedLength encNode (NodeInfo.Node (heap a).nodeInfo) < 2 ^ 64 →
     ∃ t, k8sApiNodeInfoNodeFn (marshalIfUnderLimit encNode) ctx
            { heap := heap, mem := mem, stack := s0 :: s1 :: rest } = some t ∧
       t.mem = mem ∧
       t.stack[0]? = some (serializedLength encNode (NodeInfo.Node (heap a).nodeInfo))) ∧
    (bufLimit s1 < serializedLength encPod (heap a).pod →
     serializedLength encPod (heap a).pod < 2 ^ 64 →
     ∃ t, k8sApiPodFn (marshalIfUnderLimit encPod) ctx
            { heap := heap, mem := mem, stack := s0 :: s1 :: rest } = some t ∧
       t.mem = mem ∧
       t.stack[0]? = some (serializedLength encPod (heap a).pod)) := by
  constructor
  · intro hlim hlen
    refine ⟨_, by rw [nodeInfoNodeFn_run _ ctx a hctx,
      marshal_over_limit encNode mem _ _ _ hlim]; rfl, rfl, ?_⟩
    have hu : uint64 _ = _ := Nat.mod_eq_of_lt hlen
    simp [hu]
  · intro hlim hlen
    refine ⟨_, by rw [podFn_run _ ctx a hctx,
      marshal_over_limit encPod mem _ _ _ hlim]; rfl, rfl, ?_⟩
    have hu : uint64 _ = _ := Nat.mod_eq_of_lt hlen
    simp [hu]

/-- Scenario A, second call: the 37-byte pod fetched at offset 0x200 with the
limit 64, and the two-byte node fetched with the limit exactly 2. -/
theorem fetch_under_limit_writes_encoding_witness :
    filterArgsFromContext sampleCtx = some (Pointer.addr 0) ∧
    (serializedLength id (scenarioHeap 0).pod ≤ bufLimit 64 ∧
     uint32 0x200 + serializedLength id (scenarioHeap 0).pod ≤ scenarioMem.Buffer.length ∧
     ∃ t, k8sApiPodFn (marshalIfUnderLimit id) sampleCtx
            { heap := scenarioHeap, mem := scenarioMem, stack := [0x200, 64] } = some t ∧
       (t.mem.Buffer.drop (uint32 0x200)).take (serializedLength id (scenarioHeap 0).pod)
         = serialize id (scenarioHeap 0).pod ∧
       t.stack[0]? = some (serializedLength id (scenarioHeap 0).pod)) ∧
    (serializedLength id (NodeInfo.Node (sampleHeap 0).nodeInfo) ≤ bufLimit 2 ∧
     uint32 1 + serializedLength id (NodeInfo.Node (sampleHeap 0).nodeInfo)
       ≤ sampleMem.Buffer.length ∧
     ∃ t, k8sApiNodeInfoNodeFn (marshalIfUnderLimit id) sampleCtx
            { heap := sampleHeap, mem := sampleMem, stack := [1, 2] } = some t ∧
       (t.mem.Buffer.drop (uint32 1)).take
           (serializedLength id (NodeInfo.Node (sampleHeap 0).nodeInfo))
         = serialize id (NodeInfo.Node (sampleHeap 0).nodeInfo) ∧
       t.stack[0]? = some (serializedLength id (NodeInfo.Node (sampleHeap 0).nodeInfo))) := by
  have hp1 : serializedLength id (scenarioHeap 0).pod ≤ bufLimit 64 := by decide
  have hp2 : uint32 0x200 + serializedLength id (scenarioHeap 0).pod
      ≤ scenarioMem.Buffer.length := by
    have hm : scenarioMem.Buffer.length = 1024 := List.length_replicate 1024 0
    rw [hm, scenarioPod_length]
    decide
  have hn1 : serializedLength id (NodeInfo.Node (sampleHeap 0).nodeInfo) ≤ bufLimit 2 := by
    decide
  have hn2 : uint32 1 + serializedLength id (NodeInfo.Node (sampleHeap 0).nodeInfo)
      ≤ sampleMem.Buffer.length := by decide
  refine ⟨by decide, ⟨hp1, hp2, ?_⟩, ⟨hn1, hn2, ?_⟩⟩
  · obtain ⟨t, ht, hb, hs, -⟩ :=
      (fetch_under_limit_writes_encoding id id sampleCtx 0 (by decide) scenarioHeap
        scenarioMem 0x200 64 []).2 hp1 hp2
    exact ⟨t, ht, hb, hs⟩
  · obtain ⟨t, ht, hb, hs, -⟩ :=
      (fetch_under_limit_writes_encoding id id sampleCtx 0 (by decide) sampleHeap
        sampleMem 1 2 []).1 hn1 hn2
    exact ⟨t, ht, hb, hs⟩

/-- Scenario A, first call: the 37-byte pod fetched at offset 0x100 with the
limit 16 returns 37 and leaves the memory as it was; so does a probe of the
two-byte node with the limit 0. -/
theorem fetch_over_limit_writes_nothing_witness :
    filterArgsFromContext sampleCtx = some (Pointer.addr 0) ∧
    (bufLimit 16 < serializedLength id (scenarioHeap 0).pod ∧
     serializedLength id (scenarioHeap 0).pod < 2 ^ 64 ∧
     ∃ t, k8sApiPodFn (marshalIfUnderLimit id) sampleCtx
            { heap := scenarioHeap, mem := scenarioMem, stack := [0x100, 16] } = some t ∧
       t.mem = scenarioMem ∧ t.stack[0]? = some (serializedLength id (scenarioHeap 0).pod)) ∧
    (bufLimit 0 < serializedLength id (NodeInfo.Node (scenarioHeap 0).nodeInfo) ∧
     serializedLength id (NodeInfo.Node (scenarioHeap 0).nodeInfo) < 2 ^ 64 ∧
     ∃ t, k8sApiNodeInfoNodeFn (marshalIfUnderLimit id) sampleCtx
            { heap := scenarioHeap, mem := scenarioMem, stack := [0x100, 0] } = some t ∧
       t.mem = scenarioMem ∧
       t.stack[0]? = some (serializedLength id (NodeInfo.Node (scenarioHeap 0).nodeInfo))) :=
  ⟨by decide,
   ⟨by decide, by decide,
    (fetch_over_limit_writes_nothing id id sampleCtx 0 (by decide) scenarioHeap scenarioMem
      0x100 16 []).2 (by decide) (by decide)⟩,
   ⟨by decide, by decide,
    (fetch_over_limit_writes_nothing id id sampleCtx 0 (by decide) scenarioHeap scenarioMem
      0x100 0 []).1 (by decide) (by decide)⟩⟩

/-- C6: with a request attached and the stack `[buf, bufLimit]`,
`k8sApiNodeInfoNodeFn` is exactly one call of `marshalIfUnderLimit` on the memory
of the calling module, the node of the nodeInfo of the request, the offset and
the limit taken from the stack: it panics when that call panics, and otherwise
leaves the memory that call left and stores the length that call returned in
slot 0. The pod of the request plays no part. This holds for every marshal
function, also one whose every call is visible in the memory. -/
theorem nodeInfoNodeFn_delegates {P N : Type} (marshal : Marshal N) (ctx : Context) (a : Nat)
    (hctx : filterArgsFromContext ctx = some (Pointer.addr a))
    (heap : Nat → filterArgs P N) (mem : Memory) (s0 s1 : Nat) (rest : List Nat) :
    k8sApiNodeInfoNodeFn marshal ctx { heap := heap, mem := mem, stack := s0 :: s1 :: rest }
      = (marshal mem (NodeInfo.Node (heap a).nodeInfo) (uint32 s0) (bufLimit s1)).map
          (fun r => { heap := heap, mem := r.1, stack := uint64 r.2 :: s1 :: rest }) ∧
    (∀ m len, marshal mem (NodeInfo.Node (heap a).nodeInfo) (uint32 s0) (bufLimit s1)
        = some (m, len) → len < 2 ^ 64 →
      ∃ t, k8sApiNodeInfoNodeFn marshal ctx
             { heap := heap, mem := mem, stack := s0 :: s1 :: rest } = some t ∧
        t.stack[0]? = some len ∧ t.mem = m) ∧
    (∀ pod : Option P,
      (k8sApiNodeInfoNodeFn marshal ctx
          { heap := Function.update heap a { heap a with pod := pod }, mem := mem,
            stack := s0 :: s1 :: rest }).map (fun t => (t.mem, t.stack))
        = (k8sApiNodeInfoNodeFn marshal ctx
          { heap := heap, mem := mem, stack := s0 :: s1 :: rest }).map
            (fun t => (t.mem, t.stack))) := by
  refine ⟨nodeInfoNodeFn_run marshal ctx a hctx heap mem s0 s1 rest, ?_, ?_⟩
  · intro m len hm hlen
    have hu : uint64 len = len := Nat.mod_eq_of_lt hlen
    refine ⟨_, by rw [nodeInfoNodeFn_run marshal ctx a hctx, hm]; rfl, ?_, rfl⟩
    simp [hu]
  · intro pod
    rw [nodeInfoNodeFn_run marshal ctx a hctx, nodeInfoNodeFn_run marshal ctx a hctx]
    simp [Function.comp_def]

/-- One call of the node function with the tallying marshal function. -/
theorem nodeInfoNodeFn_delegates_witness :
    filterArgsFromContext sampleCtx = some (Pointer.addr 0) ∧
    tallyMarshal sampleMem (NodeInfo.Node (sampleHeap 0).nodeInfo) (uint32 1) (bufLimit 4)
      = some ({ Buffer := [11, 12, 13, 14] }, 7) ∧
    ∃ t, k8sApiNodeInfoNodeFn tallyMarshal sampleCtx
           { heap := sampleHeap, mem := sampleMem, stack := [1, 4] } = some t ∧
      t.stack[0]? = some 7 ∧ t.mem = { Buffer := [11, 12, 13, 14] } :=
  ⟨by decide, by decide,
   (nodeInfoNodeFn_delegates tallyMarshal sampleCtx 0 (by decide) sampleHeap sampleMem 1 4
     []).2.1 _ _ (by decide) (by decide)⟩

/-- C7: with a request attached and the stack `[buf, bufLimit]`, `k8sApiPodFn`
is exactly one call of `marshalIfUnderLimit` on the memory of the calling
module, the pod of the request, the offset and the limit taken from the stack:
it panics when that call panics, and otherwise leaves the memory that call left
and stores the length that call returned in slot 0. The nodeInfo of the request
plays no part. This holds for every marshal function, also one whose every call
is visible in the memory. -/
theorem podFn_delegates {P N : Type} (marshal : Marshal P) (ctx : Context) (a : Nat)
    (hctx : filterArgsFromContext ctx = some (Pointer.addr a))
    (heap : Nat → filterArgs P N) (mem : Memory) (s0 s1 : Nat) (rest : List Nat) :
    k8sApiPodFn marshal ctx { heap := heap, mem := mem, stack := s0 :: s1 :: rest }
      = (marshal mem (heap a).pod (uint32 s0) (bufLimit s1)).map
          (fun r => { heap := heap, mem := r.1, stack := uint64 r.2 :: s1 :: rest }) ∧
    (∀ m len, marshal mem (heap a).pod (uint32 s0) (bufLimit s1) = some (m, len) →
      len < 2 ^ 64 →
      ∃ t, k8sApiPodFn marshal ctx
             { heap := heap, mem := mem, stack := s0 :: s1 :: rest } = some t ∧
        t.stack[0]? = some len ∧ t.mem = m) ∧
    (∀ nodeInfo : Option (NodeInfo N),
      (k8sApiPodFn marshal ctx
          { heap := Function.update heap a { heap a with nodeInfo := nodeInfo }, mem := mem,
            stack := s0 :: s1 :: rest }).map (fun t => (t.mem, t.stack))
        = (k8sApiPodFn marshal ctx
          { heap := heap, mem := mem, stack := s0 :: s1 :: rest }).map
            (fun t => (t.mem, t.stack))) := by
  refine ⟨podFn_run marshal ctx a hctx heap mem s0 s1 rest, ?_, ?_⟩
  · intro m len hm hlen
    have hu : uint64 len = len := Nat.mod_eq_of_lt hlen
    refine ⟨_, by rw [podFn_run marshal ctx a hctx, hm]; rfl, ?_, rfl⟩
    simp [hu]
  · intro nodeInfo
    rw [podFn_run marshal ctx a hctx, podFn_run marshal ctx a hctx]
    simp [Function.comp_def]

/-- One call of the pod function with the tallying marshal function. -/
theorem podFn_delegates_witness :
    filterArgsFromContext sampleCtx = some (Pointer.addr 0) ∧
    tallyMarshal sampleMem (sampleHeap 0).pod (uint32 1) (bufLimit 4)
      = some ({ Buffer := [11, 12, 13, 14] }, 9) ∧
    ∃ t, k8sApiPodFn tallyMarshal sampleCtx
           { heap := sampleHeap, mem := sampleMem, stack := [1, 4] } = some t ∧
      t.stack[0]? = some 9 ∧ t.mem = { Buffer := [11, 12, 13, 14] } :=
  ⟨by decide, by decide,
   (podFn_delegates tallyMarshal sampleCtx 0 (by decide) sampleHeap sampleMem 1 4
     []).2.1 _ _ (by decide) (by decide)⟩

/-! ## The import contract -/

/-- C8: the host registers exactly three functions: `status_reason` in
`k8s.io/scheduler` with two 32-bit parameters and no result, `nodeInfo/node` and
`pod` in `k8s.io/api` with two 32-bit parameters and one 32-bit result. The guest
declarations have, one for one and in the same order, the same module name, function name, parameter types and result types; so every
registered function is imported under its signature and the guest declares
nothing the host does not register. -/
theorem guest_imports_mirror_host_registry :
    hostRegistry =
      [{ moduleName := "k8s.io/scheduler", functionName := "status_reason",
         params := [ValueType.I32, ValueType.I32], results := [] },
       { moduleName := "k8s.io/api", functionName := "nodeInfo/node",
         params := [ValueType.I32, ValueType.I32], results := [ValueType.I32] },
       { moduleName := "k8s.io/api", functionName := "pod",
         params := [ValueType.I32, ValueType.I32], results := [ValueType.I32] }] ∧
    guestImports.map GuestImport.signature = hostRegistry ∧
    (∀ h ∈ hostRegistry, ∃ g ∈ guestImports,
      g.wasmModule = h.moduleName ∧ g.exportName = h.functionName ∧
      g.params.map GoType.valueType = h.params ∧
      g.results.map GoType.valueType = h.results) ∧
    (∀ g ∈ guestImports, g.signature ∈ hostRegistry) ∧
    (instantiateHostScheduler.functions.map (fun f => f.fn) = [HostFn.statusReason] ∧
     instantiateHostApi.functions.map (fun f => f.fn) = [HostFn.nodeInfoNode, HostFn.pod]) := by
  refine ⟨by decide, by decide, by decide, by decide, by decide, by decide⟩

/-! ## Isolation and frame -/

/-- C9: let A and B be two requests at distinct addresses, each attached to its
own context. A call of any of the three host functions with the context of A
leaves the `filterArgs` of B (pod, nodeInfo and reason) as it was; and whether
the call returns, the stack and memory it leaves and the `filterArgs` of A
afterwards are the same in any two heaps that agree on the `filterArgs` of A,
whatever they hold for B. -/
theorem calls_are_isolated {P N : Type} (marshalNode : Marshal N) (marshalPod : Marshal P)
    (f : HostFn) (ctxA ctxB : Context) (a b : Nat)
    (hA : filterArgsFromContext ctxA = some (Pointer.addr a))
    (hB : filterArgsFromContext ctxB = some (Pointer.addr b))
    (hab : a ≠ b) :
    (∀ s t : HostState P N, f.call marshalNode marshalPod ctxA s = some t →
      t.heap b = s.heap b) ∧
    (∀ s₁ s₂ : HostState P N, s₁.heap a = s₂.heap a → s₁.mem = s₂.mem → s₁.stack = s₂.stack →
      (f.call marshalNode marshalPod ctxA s₁).map (fun t => (t.heap a, t.mem, t.stack))
        = (f.call marshalNode marshalPod ctxA s₂).map (fun t => (t.heap a, t.mem, t.stack))) := by
  have _ := hB
  constructor
  · intro s t h
    cases f with
    | statusReason =>
      obtain ⟨a₀, s0, s1, rest, ha₀, -, rfl⟩ := statusReasonFn_some ctxA s t h
      have haa : a₀ = a := by
        rw [hA] at ha₀
        exact (Pointer.addr.inj (Option.some.inj ha₀)).symm
      subst haa
      exact Function.update_noteq (Ne.symm hab) _ _
    | nodeInfoNode =>
      obtain ⟨_, _, _, _, _, -, -, -, rfl⟩ := nodeInfoNodeFn_some marshalNode ctxA s t h
      rfl
    | pod =>
      obtain ⟨_, _, _, _, _, -, -, -, rfl⟩ := podFn_some marshalPod ctxA s t h
      rfl
  · intro s₁ s₂ hheap hmem hstack
    obtain ⟨heap₁, mem₁, stack₁⟩ := s₁
    obtain ⟨heap₂, mem₂, stack₂⟩ := s₂
    simp only at hheap hmem hstack
    subst hmem hstack
    rcases stack₁ with _ | ⟨s0, _ | ⟨s1, rest⟩⟩
    · cases f <;>
        simp [HostFn.call, k8sSchedulerStatusReasonFn, k8sApiNodeInfoNodeFn, k8sApiPodFn]
    · cases f <;>
        simp [HostFn.call, k8sSchedulerStatusReasonFn, k8sApiNodeInfoNodeFn, k8sApiPodFn]
    · cases f with
      | statusReason =>
        simp only [HostFn.call]
        rw [statusReasonFn_run ctxA a hA, statusReasonFn_run ctxA a hA]
        simp [hheap]
      | nodeInfoNode =>
        simp only [HostFn.call]
        rw [nodeInfoNodeFn_run marshalNode ctxA a hA, nodeInfoNodeFn_run marshalNode ctxA a hA]
        simp [hheap, Function.comp_def]
      | pod =>
        simp only [HostFn.call]
        rw [podFn_run marshalPod ctxA a hA, podFn_run marshalPod ctxA a hA]
        simp [hheap, Function.comp_def]

/-- The three host functions called for the request at address 0 while a second
request lives at address 1. -/
theorem calls_are_isolated_witness :
    filterArgsFromContext sampleCtx = some (Pointer.addr 0) ∧
    filterArgsFromContext otherCtx = some (Pointer.addr 1) ∧
    ∀ f : HostFn,
      (∀ s t : HostState (List Byte) (List Byte),
        f.call (marshalIfUnderLimit id) (marshalIfUnderLimit id) sampleCtx s = some t →
        t.heap 1 = s.heap 1) ∧
      (∀ s₁ s₂ : HostState (List Byte) (List Byte),
        s₁.heap 0 = s₂.heap 0 → s₁.mem = s₂.mem → s₁.stack = s₂.stack →
        (f.call (marshalIfUnderLimit id) (marshalIfUnderLimit id) sampleCtx s₁).map
            (fun t => (t.heap 0, t.mem, t.stack))
          = (f.call (marshalIfUnderLimit id) (marshalIfUnderLimit id) sampleCtx s₂).map
            (fun t => (t.heap 0, t.mem, t.stack))) :=
  ⟨by decide, by decide, fun f =>
    calls_are_isolated (marshalIfUnderLimit id) (marshalIfUnderLimit id) f sampleCtx otherCtx
      0 1 (by decide) (by decide) (by decide)⟩

/-- C10: a call of `k8sSchedulerStatusReasonFn` that returns leaves the guest
memory, the stack, and the pod and nodeInfo of every request as they were; a
call of `k8sApiNodeInfoNodeFn` or `k8sApiPodFn` that returns leaves every
`filterArgs` (reason, pod, nodeInfo) as it was and changes no stack slot other
than slot 0. With a request attached and two stack slots the first always
returns, and the other two return whenever their marshal call does. -/
theorem host_functions_frame {P N : Type} (marshalNode : Marshal N) (marshalPod : Marshal P)
    (ctx : Context) (s : HostState P N) :
    (∀ t, k8sSchedulerStatusReasonFn ctx s = some t →
      t.mem = s.mem ∧ t.stack = s.stack ∧
      ∀ q, (t.heap q).pod = (s.heap q).pod ∧ (t.heap q).nodeInfo = (s.heap q).nodeInfo) ∧
    (∀ t, k8sApiNodeInfoNodeFn marshalNode ctx s = some t →
      t.heap = s.heap ∧ t.stack.length = s.stack.length ∧
      ∀ i, i ≠ 0 → t.stack[i]? = s.stack[i]?) ∧
    (∀ t, k8sApiPodFn marshalPod ctx s = some t →
      t.heap = s.heap ∧ t.stack.length = s.stack.length ∧
      ∀ i, i ≠ 0 → t.stack[i]? = s.stack[i]?) ∧
    (∀ a, filterArgsFromContext ctx = some (Pointer.addr a) → 2 ≤ s.stack.length →
      (k8sSchedulerStatusReasonFn ctx s).isSome = true ∧
      (k8sApiNodeInfoNodeFn marshalNode ctx s).isSome
        = (marshalNode s.mem (NodeInfo.Node (s.heap a).nodeInfo)
            (uint32 (s.stack.getD 0 0)) (bufLimit (s.stack.getD 1 0))).isSome ∧
      (k8sApiPodFn marshalPod ctx s).isSome
        = (marshalPod s.mem (s.heap a).pod
            (uint32 (s.stack.getD 0 0)) (bufLimit (s.stack.getD 1 0))).isSome) := by
  refine ⟨?_, ?_, ?_, ?_⟩
  · intro t h
    obtain ⟨a, s0, s1, rest, -, -, rfl⟩ := statusReasonFn_some ctx s t h
    refine ⟨rfl, rfl, fun q => ?_⟩
    by_cases hq : q = a
    · subst hq
      simp
    · simp [Function.update_noteq hq]
  · intro t h
    obtain ⟨a, s0, s1, rest, r, -, hs, -, rfl⟩ := nodeInfoNodeFn_some marshalNode ctx s t h
    refine ⟨rfl, by simp [hs], fun i hi => ?_⟩
    obtain ⟨j, rfl⟩ := Nat.exists_eq_succ_of_ne_zero hi
    simp [hs]
  · intro t h
    obtain ⟨a, s0, s1, rest, r, -, hs, -, rfl⟩ := podFn_some marshalPod ctx s t h
    refine ⟨rfl, by simp [hs], fun i hi => ?_⟩
    obtain ⟨j, rfl⟩ := Nat.exists_eq_succ_of_ne_zero hi
    simp [hs]
  · intro a hctx hlen
    obtain ⟨heap, mem, stack⟩ := s
    rcases stack with _ | ⟨s0, _ | ⟨s1, rest⟩⟩
    · simp at hlen
    · simp at hlen
    · rw [statusReasonFn_run ctx a hctx, nodeInfoNodeFn_run marshalNode ctx a hctx,
        podFn_run marshalPod ctx a hctx]
      simp

/-- The frame of the three host functions at the sample request. -/
theorem host_functions_frame_witness :
    filterArgsFromContext sampleCtx = some (Pointer.addr 0) ∧
    (k8sSchedulerStatusReasonFn sampleCtx
      ({ heap := sampleHeap, mem := sampleMem, stack := [1, 2, 99] } :
        HostState (List Byte) (List Byte))).isSome = true ∧
    (k8sApiPodFn (marshalIfUnderLimit id) sampleCtx
      ({ heap := sampleHeap, mem := sampleMem, stack := [0, 4, 99] } :
        HostState (List Byte) (List Byte))).isSome = true ∧
    ∀ t, k8sApiPodFn (marshalIfUnderLimit id) sampleCtx
        { heap := sampleHeap, mem := sampleMem, stack := [0, 4, 99] } = some t →
      t.heap = sampleHeap ∧ t.stack.length = 3 ∧ ∀ i, i ≠ 0 → t.stack[i]? = [0, 4, 99][i]? := by
  have h := host_functions_frame (marshalIfUnderLimit id) (marshalIfUnderLimit id) sampleCtx
    ({ heap := sampleHeap, mem := sampleMem, stack := [0, 4, 99] } :
      HostState (List Byte) (List Byte))
  have hs := host_functions_frame (marshalIfUnderLimit id) (marshalIfUnderLimit id) sampleCtx
    ({ heap := sampleHeap, mem := sampleMem, stack := [1, 2, 99] } :
      HostState (List Byte) (List Byte))
  refine ⟨by decide, (hs.2.2.2 0 (by decide) (by decide)).1, ?_, h.2.2.1⟩
  rw [(h.2.2.2 0 (by decide) (by decide)).2.2]
  decide

end SchedulerWasm
